import Mathlib

/-!
Verification of the cozynes 6502 emulator core: a shallow embedding of
`src/cozynes/src/cpu.rs`, `bus.rs` and `rom.rs` into Lean, with theorems
settling the specification claims about flag algebra, addressing modes,
stack discipline, status packing, PRG-ROM mirroring and cartridge loading.

Machine integers are modelled as `Nat` with explicit `% 256` / `% 65536`
truncation at the points where the Rust types (`u8` / `u16`) truncate.
`lib.rs` declares `pub mod mem;` and `pub mod instruction;` but those two
files are not present in the repository snapshot; the derived accessors of the `Mem` trait
16-bit accessors and the shape of an opcode-table entry are modelled from
the specification where noted.
-/

namespace Cozynes

/-- The CPU status word, decomposed into eight named boolean flags
(`struct Status` in cpu.rs). -/
structure Status where
  carry : Bool
  zero : Bool
  disable_interrupts : Bool
  decimal : Bool
  b1 : Bool
  b2 : Bool
  overflow : Bool
  negative : Bool
deriving Repr, DecidableEq

/-- Unpacking of a status byte (`impl From<u8> for Status`, cpu.rs lines
17-30)
into the eight flags, bit 0 = carry ... bit 7 = negative. -/
def Status.fromByte (v : Nat) : Status where
  carry := (v &&& 0b00000001) != 0
  zero := (v &&& 0b00000010) != 0
  disable_interrupts := (v &&& 0b00000100) != 0
  decimal := (v &&& 0b00001000) != 0
  b1 := (v &&& 0b00010000) != 0
  b2 := (v &&& 0b00100000) != 0
  overflow := (v &&& 0b01000000) != 0
  negative := (v &&& 0b10000000) != 0

/-- Packing of the status flags (`impl From<&Status> for u8`, cpu.rs lines
32-45): packs the eight flags
into a byte by or-ing each flag shifted to its bit position. -/
def Status.toByte (v : Status) : Nat :=
  v.carry.toNat |||
  v.zero.toNat <<< 1 |||
  v.disable_interrupts.toNat <<< 2 |||
  v.decimal.toNat <<< 3 |||
  v.b1.toNat <<< 4 |||
  v.b2.toNat <<< 5 |||
  v.overflow.toNat <<< 6 |||
  v.negative.toNat <<< 7

/-- Addressing modes (`enum AddressingMode` in cpu.rs). -/
inductive AddressingMode where
  | immediate
  | zeroPage
  | zeroPageX
  | zeroPageY
  | absolute
  | absoluteX
  | absoluteY
  | indirect
  | indirectX
  | indirectY
  | relative
  | noMode
deriving Repr, DecidableEq

/-- Register selectors (`enum Register` in cpu.rs). -/
inductive Register where
  | A
  | X
  | Y
  | S
deriving Repr, DecidableEq

/-- Branch conditions (`enum BranchCondition` in cpu.rs). -/
inductive BranchCondition where
  | carrySet
  | carryClear
  | zeroSet
  | zeroClear
  | minusSet
  | minusClear
  | overflowSet
  | overflowClear
deriving Repr, DecidableEq

/-- The CPU register file (`struct Cpu` in cpu.rs).  The memory behind the
`Mem` trait is modelled as a plain byte store `mem : Nat → Nat`: the CPU
methods `read_byte`/`write_byte` forward to the bus, whose RAM region behaves as a
byte store; addresses are truncated to 16 bits and stored values to 8 bits
at the access points, mirroring the `u16`/`u8` types. -/
structure Cpu where
  a : Nat
  x : Nat
  y : Nat
  sp : Nat
  status : Status
  pc : Nat
  running : Bool
  cycles : Nat
  mem : Nat → Nat

/-- Stack page base (`pub const STACK: u16 = 0x0100;`, cpu.rs line 3). -/
def STACK : Nat := 0x0100

/-- Byte read through the `Mem` trait: the address is a `u16` and the
result a `u8`. -/
def Cpu.read_byte (c : Cpu) (addr : Nat) : Nat :=
  c.mem (addr % 65536) % 256

/-- Byte write through the `Mem` trait: updates the store at the 16-bit
address with the 8-bit value. -/
def Cpu.write_byte (c : Cpu) (addr value : Nat) : Cpu :=
  { c with mem := fun adr => if adr = addr % 65536 then value % 256 else c.mem adr }

/-- Modelled from the spec: the derived 16-bit read of the `Mem` trait
(mem.rs is declared in lib.rs but absent from src/); §4.2: "a 16-bit
`read_word`/`write_word` pair is derived from two `read_byte`/`write_byte`
calls in little-endian order". Low byte at `addr`, high byte at `addr + 1`
(16-bit wraparound). -/
def Cpu.read_word (c : Cpu) (addr : Nat) : Nat :=
  c.read_byte ((addr + 1) % 65536) <<< 8 ||| c.read_byte addr

/-- Modelled from the spec: the derived 16-bit write of the `Mem` trait,
little-endian order (see `Cpu.read_word`). -/
def Cpu.write_word (c : Cpu) (addr value : Nat) : Cpu :=
  (c.write_byte addr (value % 256)).write_byte ((addr + 1) % 65536) (value >>> 8)

/-- Flag helper `Cpu::update_zero_and_negative` (cpu.rs lines 175-178):
`zero = value == 0`, `negative = value >> 7 == 1`. -/
def Cpu.update_zero_and_negative (c : Cpu) (value : Nat) : Cpu :=
  { c with status := { c.status with zero := value == 0, negative := value >>> 7 == 1 } }

/-- Flag helper `Cpu::update_negative` (cpu.rs lines 180-182). -/
def Cpu.update_negative (c : Cpu) (value : Nat) : Cpu :=
  { c with status := { c.status with negative := value >>> 7 == 1 } }

/-- Register read `Cpu::get_register` (cpu.rs lines 343-351). -/
def Cpu.get_register (c : Cpu) (register : Register) : Nat :=
  match register with
  | .A => c.a
  | .X => c.x
  | .Y => c.y
  | .S => c.sp

/-- Register write `Cpu::set_register` (cpu.rs lines 353-361). -/
def Cpu.set_register (c : Cpu) (register : Register) (value : Nat) : Cpu :=
  match register with
  | .A => { c with a := value }
  | .X => { c with x := value }
  | .Y => { c with y := value }
  | .S => { c with sp := value }

/-- Addressing-mode resolver `Cpu::get_operand_address` (cpu.rs lines
363-419).  `u8` wrapping adds
become `% 256`, `u16` wrapping adds become `% 65536`; `offset as i8 as u16`
in the Relative arm sign-extends the byte into 16 bits.  The source arm
for `AddressingMode::None` is marked unreachable; it is given the value 0
here and no theorem depends on it. -/
def Cpu.get_operand_address (c : Cpu) (mode : AddressingMode) (pc : Nat) : Nat :=
  match mode with
  | .immediate => pc
  | .zeroPage => c.read_byte pc
  | .zeroPageX =>
    let addr := c.read_byte pc
    (addr + c.x) % 256
  | .zeroPageY =>
    let addr := c.read_byte pc
    (addr + c.y) % 256
  | .absolute => c.read_word pc
  | .absoluteX =>
    let addr := c.read_word pc
    (addr + c.x) % 65536
  | .absoluteY =>
    let addr := c.read_word pc
    (addr + c.y) % 65536
  | .indirect =>
    let mem_address := c.read_word pc
    -- 6502 bug mode with page boundary: the low byte of the target comes
    -- from mem_address and the high byte from the start of the same page.
    if mem_address &&& 0x00FF = 0x00FF then
      let lo := c.read_byte mem_address
      let hi := c.read_byte (mem_address &&& 0xFF00)
      hi <<< 8 ||| lo
    else
      c.read_word mem_address
  | .indirectX =>
    let base := c.read_byte pc
    let ptr := (base + c.x) % 256
    let lo := c.read_byte ptr
    let hi := c.read_byte ((ptr + 1) % 256)
    hi <<< 8 ||| lo
  | .indirectY =>
    let base := c.read_byte pc
    let lo := c.read_byte base
    let hi := c.read_byte ((base + 1) % 256)
    let ptr := hi <<< 8 ||| lo
    (ptr + c.y) % 65536
  | .relative =>
    let offset := c.read_byte pc
    let sext := if offset < 0x80 then offset else offset + 0xFF00
    (pc + sext) % 65536
  | .noMode => 0

/-- Handler `Cpu::load` (cpu.rs lines 184-189). -/
def Cpu.load (c : Cpu) (register : Register) (mode : AddressingMode) : Cpu :=
  let addr := c.get_operand_address mode c.pc
  let value := c.read_byte addr
  (c.set_register register value).update_zero_and_negative value

/-- Handler `Cpu::transfer` (cpu.rs lines 421-427). -/
def Cpu.transfer (c : Cpu) (src dst : Register) : Cpu :=
  let value := c.get_register src
  let c' := c.set_register dst value
  if dst ≠ Register.S then c'.update_zero_and_negative value else c'

/-- Handler `Cpu::increment_register` (cpu.rs lines 429-433); `wrapping_add(1)` on
a `u8` is `(· + 1) % 256`. -/
def Cpu.increment_register (c : Cpu) (register : Register) : Cpu :=
  let value := (c.get_register register + 1) % 256
  (c.set_register register value).update_zero_and_negative value

/-- Handler `Cpu::decrement_register` (cpu.rs lines 435-439); `wrapping_sub(1)` on
a `u8` is `(· + 255) % 256`. -/
def Cpu.decrement_register (c : Cpu) (register : Register) : Cpu :=
  let value := (c.get_register register + 255) % 256
  (c.set_register register value).update_zero_and_negative value

/-- Handler `Cpu::increment_memory` (cpu.rs lines 441-447); returns the written
value alongside the new state. -/
def Cpu.increment_memory (c : Cpu) (mode : AddressingMode) : Cpu × Nat :=
  let addr := c.get_operand_address mode c.pc
  let value := (c.read_byte addr + 1) % 256
  ((c.write_byte addr value).update_zero_and_negative value, value)

/-- Handler `Cpu::decrement_memory` (cpu.rs lines 449-454). -/
def Cpu.decrement_memory (c : Cpu) (mode : AddressingMode) : Cpu :=
  let addr := c.get_operand_address mode c.pc
  let value := (c.read_byte addr + 255) % 256
  (c.write_byte addr value).update_zero_and_negative value

/-- Handler `Cpu::and` (cpu.rs lines 456-461). -/
def Cpu.and (c : Cpu) (mode : AddressingMode) : Cpu :=
  let addr := c.get_operand_address mode c.pc
  let value := c.read_byte addr
  let c' := { c with a := c.a &&& value }
  c'.update_zero_and_negative c'.a

/-- Handler `Cpu::ora` (cpu.rs lines 463-468). -/
def Cpu.ora (c : Cpu) (mode : AddressingMode) : Cpu :=
  let addr := c.get_operand_address mode c.pc
  let value := c.read_byte addr
  let c' := { c with a := c.a ||| value }
  c'.update_zero_and_negative c'.a

/-- Handler `Cpu::eor` (cpu.rs lines 470-475). -/
def Cpu.eor (c : Cpu) (mode : AddressingMode) : Cpu :=
  let addr := c.get_operand_address mode c.pc
  let value := c.read_byte addr
  let c' := { c with a := c.a ^^^ value }
  c'.update_zero_and_negative c'.a

/-- Handler `Cpu::compare` (cpu.rs lines 477-483): `carry = value <= register`;
zero/negative from the `u8` wrapping difference `register - value`. -/
def Cpu.compare (c : Cpu) (register : Register) (mode : AddressingMode) : Cpu :=
  let addr := c.get_operand_address mode c.pc
  let value := c.read_byte addr
  let register_value := c.get_register register
  let c' := { c with status := { c.status with carry := value ≤ register_value } }
  c'.update_zero_and_negative ((register_value + 256 - value) % 256)

/-- Handler `Cpu::store` (cpu.rs lines 485-489). -/
def Cpu.store (c : Cpu) (register : Register) (mode : AddressingMode) : Cpu :=
  let addr := c.get_operand_address mode c.pc
  c.write_byte addr (c.get_register register)

/-- Handler `Cpu::bit` (cpu.rs lines 491-497). -/
def Cpu.bit (c : Cpu) (mode : AddressingMode) : Cpu :=
  let addr := c.get_operand_address mode c.pc
  let value := c.read_byte addr
  { c with status := { c.status with
      zero := (value &&& c.a) == 0,
      negative := (value &&& 0x80) != 0,
      overflow := (value &&& 0x40) != 0 } }

/-- The condition test inside `Cpu::branch` (cpu.rs lines 500-509). -/
def Cpu.condition_met (c : Cpu) (condition : BranchCondition) : Bool :=
  match condition with
  | .carrySet => c.status.carry
  | .carryClear => !c.status.carry
  | .zeroSet => c.status.zero
  | .zeroClear => !c.status.zero
  | .minusSet => c.status.negative
  | .minusClear => !c.status.negative
  | .overflowSet => c.status.overflow
  | .overflowClear => !c.status.overflow

/-- Handler `Cpu::branch` (cpu.rs lines 499-516): if the condition holds, PC is set
to the Relative-resolved target; then PC is unconditionally incremented. -/
def Cpu.branch (c : Cpu) (condition : BranchCondition) (mode : AddressingMode) : Cpu :=
  let c' := if c.condition_met condition
    then { c with pc := c.get_operand_address mode c.pc }
    else c
  { c' with pc := (c'.pc + 1) % 65536 }

/-- Stack push `Cpu::push_byte` (cpu.rs lines 528-531): write at `STACK + sp`, then
decrement SP with 8-bit wraparound. -/
def Cpu.push_byte (c : Cpu) (value : Nat) : Cpu :=
  let c' := c.write_byte (STACK + c.sp) value
  { c' with sp := (c'.sp + 255) % 256 }

/-- Stack pop `Cpu::pop_byte` (cpu.rs lines 533-536): increment SP with 8-bit
wraparound, then read at `STACK + sp`. -/
def Cpu.pop_byte (c : Cpu) : Cpu × Nat :=
  let c' := { c with sp := (c.sp + 1) % 256 }
  (c', c'.read_byte (STACK + c'.sp))

/-- Stack push `Cpu::push_word` (cpu.rs lines 538-543): high byte first, then low. -/
def Cpu.push_word (c : Cpu) (value : Nat) : Cpu :=
  let hi := (value >>> 8) % 256
  let lo := (value &&& 0xFF) % 256
  (c.push_byte hi).push_byte lo

/-- Stack pop `Cpu::pop_word` (cpu.rs lines 545-549): low byte then high byte,
recombined as `hi << 8 | lo`. -/
def Cpu.pop_word (c : Cpu) : Cpu × Nat :=
  let (c1, lo) := c.pop_byte
  let (c2, hi) := c1.pop_byte
  (c2, hi <<< 8 ||| lo)

/-- Handler `Cpu::jsr` (cpu.rs lines 518-522). -/
def Cpu.jsr (c : Cpu) (mode : AddressingMode) : Cpu :=
  let addr := c.get_operand_address mode c.pc
  let c' := c.push_word ((c.pc + 1) % 65536)
  { c' with pc := addr }

/-- Handler `Cpu::rts` (cpu.rs lines 524-526). -/
def Cpu.rts (c : Cpu) : Cpu :=
  let (c', w) := c.pop_word
  { c' with pc := (w + 1) % 65536 }

/-- Shared addition path `Cpu::add_to_a` (cpu.rs lines 564-575): the shared ADC/SBC/RRA/ISB
addition path.  The sum is computed in a widened accumulator; carry is set
from the unwrapped sum; the sum is truncated to 8 bits; overflow is
`(value ^ sum) & (sum ^ a) & 0x80 != 0` against the pre-addition
accumulator. -/
def Cpu.add_to_a (c : Cpu) (value : Nat) : Cpu :=
  let carry := if c.status.carry then 1 else 0
  let sum := c.a + value + carry
  let carryFlag := sum > 0xFF
  let sum8 := sum % 256
  let overflowFlag := ((value ^^^ sum8) &&& (sum8 ^^^ c.a) &&& 0x80) ≠ 0
  let c' := { c with
    a := sum8,
    status := { c.status with carry := carryFlag, overflow := overflowFlag } }
  c'.update_zero_and_negative c'.a

/-- Handler `Cpu::adc` (cpu.rs lines 551-555). -/
def Cpu.adc (c : Cpu) (mode : AddressingMode) : Cpu :=
  let addr := c.get_operand_address mode c.pc
  let value := c.read_byte addr
  c.add_to_a value

/-- Handler `Cpu::sbc` (cpu.rs lines 557-562): the operand byte is transformed by
`((value as i8).wrapping_neg().wrapping_sub(1)) as u8`, i.e. twos-
complement negation followed by a wrapping decrement on the 8-bit pattern,
then fed to the shared addition path. -/
def Cpu.sbc (c : Cpu) (mode : AddressingMode) : Cpu :=
  let addr := c.get_operand_address mode c.pc
  let value := c.read_byte addr
  let value := ((256 - value) % 256 + 255) % 256
  c.add_to_a value

/-- Handler `Cpu::jmp` (cpu.rs lines 577-579). -/
def Cpu.jmp (c : Cpu) (mode : AddressingMode) : Cpu :=
  { c with pc := c.get_operand_address mode c.pc }

/-- Handler `Cpu::lsr` (cpu.rs lines 581-589). -/
def Cpu.lsr (c : Cpu) (mode : AddressingMode) : Cpu × Nat :=
  let addr := c.get_operand_address mode c.pc
  let value := c.read_byte addr
  let c' := { c with status := { c.status with carry := (value &&& 1) == 1 } }
  let value := value >>> 1
  (((c'.write_byte addr value).update_zero_and_negative value), value)

/-- Handler `Cpu::lsr_a` (cpu.rs lines 591-595). -/
def Cpu.lsr_a (c : Cpu) : Cpu :=
  let c' := { c with
    status := { c.status with carry := (c.a &&& 1) == 1 },
    a := c.a >>> 1 }
  c'.update_zero_and_negative c'.a

/-- Handler `Cpu::php` (cpu.rs lines 597-602): push a copy of the status with both
B flags forced set; the live status is untouched. -/
def Cpu.php (c : Cpu) : Cpu :=
  let status := { c.status with b1 := true, b2 := true }
  c.push_byte status.toByte

/-- Handler `Cpu::plp` (cpu.rs lines 604-608): pull the status byte, then force
`b1 := false` and `b2 := true`. -/
def Cpu.plp (c : Cpu) : Cpu :=
  let (c', v) := c.pop_byte
  { c' with status := { Status.fromByte v with b1 := false, b2 := true } }

/-- Handler `Cpu::pha` (cpu.rs lines 610-612). -/
def Cpu.pha (c : Cpu) : Cpu :=
  c.push_byte c.a

/-- Handler `Cpu::pla` (cpu.rs lines 614-617). -/
def Cpu.pla (c : Cpu) : Cpu :=
  let (c', v) := c.pop_byte
  ({ c' with a := v }).update_zero_and_negative v

/-- Handler `Cpu::rti` (cpu.rs lines 619-624): pull status (forcing `b1 := false`,
`b2 := true`), then pull PC. -/
def Cpu.rti (c : Cpu) : Cpu :=
  let (c', v) := c.pop_byte
  let cs := { c' with status := { Status.fromByte v with b1 := false, b2 := true } }
  let (cf, w) := cs.pop_word
  { cf with pc := w }

/-- Handler `Cpu::asl_a` (cpu.rs lines 626-631); `u8` shift-left truncates. -/
def Cpu.asl_a (c : Cpu) : Cpu :=
  let data := c.a
  let c' := { c with
    status := { c.status with carry := (data >>> 7) == 1 },
    a := (data <<< 1) % 256 }
  c'.update_zero_and_negative c'.a

/-- Handler `Cpu::asl` (cpu.rs lines 633-641). -/
def Cpu.asl (c : Cpu) (mode : AddressingMode) : Cpu × Nat :=
  let addr := c.get_operand_address mode c.pc
  let value := c.read_byte addr
  let c' := { c with status := { c.status with carry := (value >>> 7) == 1 } }
  let value := (value <<< 1) % 256
  (((c'.write_byte addr value).update_zero_and_negative value), value)

/-- Handler `Cpu::ror_a` (cpu.rs lines 643-649). -/
def Cpu.ror_a (c : Cpu) : Cpu :=
  let value := c.a
  let carry := if c.status.carry then 1 else 0
  let c' := { c with
    status := { c.status with carry := (value &&& 0x01) == 1 },
    a := (carry <<< 7) ||| (value >>> 1) }
  c'.update_zero_and_negative c'.a

/-- Handler `Cpu::ror` (cpu.rs lines 651-660): the memory-mode rotate right; note
it calls `update_negative` only. -/
def Cpu.ror (c : Cpu) (mode : AddressingMode) : Cpu × Nat :=
  let addr := c.get_operand_address mode c.pc
  let value := c.read_byte addr
  let carry := if c.status.carry then 1 else 0
  let c' := { c with status := { c.status with carry := (value &&& 0x01) == 1 } }
  let value := (carry <<< 7) ||| (value >>> 1)
  (((c'.write_byte addr value).update_negative value), value)

/-- Handler `Cpu::rol_a` (cpu.rs lines 662-668). -/
def Cpu.rol_a (c : Cpu) : Cpu :=
  let value := c.a
  let carry := if c.status.carry then 1 else 0
  let c' := { c with
    status := { c.status with carry := (value >>> 7) == 1 },
    a := ((value <<< 1) % 256) ||| carry }
  c'.update_zero_and_negative c'.a

/-- Handler `Cpu::rol` (cpu.rs lines 670-679): the memory-mode rotate left; note
it calls `update_negative` only. -/
def Cpu.rol (c : Cpu) (mode : AddressingMode) : Cpu × Nat :=
  let addr := c.get_operand_address mode c.pc
  let value := c.read_byte addr
  let carry := if c.status.carry then 1 else 0
  let c' := { c with status := { c.status with carry := (value >>> 7) == 1 } }
  let value := ((value <<< 1) % 256) ||| carry
  (((c'.write_byte addr value).update_negative value), value)

/-- Handler `Cpu::lax` (cpu.rs lines 681-686). -/
def Cpu.lax (c : Cpu) (mode : AddressingMode) : Cpu :=
  let addr := c.get_operand_address mode c.pc
  let value := c.read_byte addr
  ({ c with a := value, x := value }).update_zero_and_negative value

/-- Handler `Cpu::sax` (cpu.rs lines 688-692). -/
def Cpu.sax (c : Cpu) (mode : AddressingMode) : Cpu :=
  let value := c.a &&& c.x
  let addr := c.get_operand_address mode c.pc
  c.write_byte addr value

/-- Handler `Cpu::dcp` (cpu.rs lines 694-700). -/
def Cpu.dcp (c : Cpu) (mode : AddressingMode) : Cpu :=
  let addr := c.get_operand_address mode c.pc
  let value := (c.read_byte addr + 255) % 256
  let c' := (c.write_byte addr value)
  let c'' := { c' with status := { c'.status with carry := value ≤ c'.a } }
  c''.update_zero_and_negative ((c''.a + 256 - value) % 256)

/-- Handler `Cpu::isb` (cpu.rs lines 702-706). -/
def Cpu.isb (c : Cpu) (mode : AddressingMode) : Cpu :=
  let (c', value) := c.increment_memory mode
  let value := ((256 - value) % 256 + 255) % 256
  c'.add_to_a value

/-- Handler `Cpu::slo` (cpu.rs lines 708-711). -/
def Cpu.slo (c : Cpu) (mode : AddressingMode) : Cpu :=
  let (c', v) := c.asl mode
  let c'' := { c' with a := c'.a ||| v }
  c''.update_zero_and_negative c''.a

/-- Handler `Cpu::rla` (cpu.rs lines 713-716). -/
def Cpu.rla (c : Cpu) (mode : AddressingMode) : Cpu :=
  let (c', v) := c.rol mode
  let c'' := { c' with a := c'.a &&& v }
  c''.update_zero_and_negative c''.a

/-- Handler `Cpu::sre` (cpu.rs lines 718-721). -/
def Cpu.sre (c : Cpu) (mode : AddressingMode) : Cpu :=
  let (c', v) := c.lsr mode
  let c'' := { c' with a := c'.a ^^^ v }
  c''.update_zero_and_negative c''.a

/-- Handler `Cpu::rra` (cpu.rs lines 723-726). -/
def Cpu.rra (c : Cpu) (mode : AddressingMode) : Cpu :=
  let (c', v) := c.ror mode
  c'.add_to_a v

/-- Modelled from the spec: one entry of the 256-entry opcode table
(`INSTRUCTIONS` lives in instruction.rs, which is declared in lib.rs but
absent from src/); §3: "each entry a fixed record of {mnemonic, addressing
mode, instruction length in bytes (1/2/3), base cycle count}".  The
mnemonic is not needed by the control flow of the executor and is omitted. -/
structure Instruction where
  mode : AddressingMode
  bytes : Nat
  cycles : Nat

set_option maxHeartbeats 4000000 in
/-- The dispatch `match opcode` inside `Cpu::step` (cpu.rs lines 216-336),
excluding the early-returning BRK arm (opcode 0x00), which `Cpu.step`
handles before dispatch.  The catch-all arm of the source aborts on an
unimplemented opcode; that is modelled as `Option.none`. -/
def Cpu.execute (c : Cpu) (opcode : Nat) (mode : AddressingMode) : Option Cpu :=
  match opcode with
  | 0xEA => some c
  | 0x1A | 0x3A | 0x5A | 0x7A | 0xDA | 0xFA | 0x80 | 0x82 | 0x89 | 0xC2 | 0xE2 | 0x04
  | 0x44 | 0x64 | 0x14 | 0x34 | 0x54 | 0x74 | 0xD4 | 0xF4 | 0x0C | 0x1C | 0x3C | 0x5C
  | 0x7C | 0xDC | 0xFC => some c
  | 0x69 | 0x65 | 0x75 | 0x6D | 0x7D | 0x79 | 0x61 | 0x71 => some (c.adc mode)
  | 0xE9 | 0xE5 | 0xF5 | 0xED | 0xFD | 0xF9 | 0xE1 | 0xF1 | 0xEB => some (c.sbc mode)
  | 0x4A => some c.lsr_a
  | 0x46 | 0x56 | 0x4E | 0x5E => some (c.lsr mode).1
  | 0x4C | 0x6C => some (c.jmp mode)
  | 0x20 => some (c.jsr mode)
  | 0x40 => some c.rti
  | 0x60 => some c.rts
  | 0xB0 => some (c.branch .carrySet mode)
  | 0x90 => some (c.branch .carryClear mode)
  | 0xF0 => some (c.branch .zeroSet mode)
  | 0xD0 => some (c.branch .zeroClear mode)
  | 0x30 => some (c.branch .minusSet mode)
  | 0x10 => some (c.branch .minusClear mode)
  | 0x70 => some (c.branch .overflowSet mode)
  | 0x50 => some (c.branch .overflowClear mode)
  | 0x0A => some c.asl_a
  | 0x06 | 0x16 | 0x0E | 0x1E => some (c.asl mode).1
  | 0x6A => some c.ror_a
  | 0x66 | 0x76 | 0x6E | 0x7E => some (c.ror mode).1
  | 0x2A => some c.rol_a
  | 0x26 | 0x36 | 0x2E | 0x3E => some (c.rol mode).1
  | 0x07 | 0x17 | 0x0F | 0x1F | 0x1B | 0x03 | 0x13 => some (c.slo mode)
  | 0x27 | 0x37 | 0x2F | 0x3F | 0x3B | 0x33 | 0x23 => some (c.rla mode)
  | 0x47 | 0x57 | 0x4F | 0x5F | 0x5B | 0x43 | 0x53 => some (c.sre mode)
  | 0x67 | 0x77 | 0x6F | 0x7F | 0x7B | 0x63 | 0x73 => some (c.rra mode)
  | 0x24 | 0x2C => some (c.bit mode)
  | 0x18 => some { c with status := { c.status with carry := false } }
  | 0x38 => some { c with status := { c.status with carry := true } }
  | 0x58 => some { c with status := { c.status with disable_interrupts := false } }
  | 0x78 => some { c with status := { c.status with disable_interrupts := true } }
  | 0xB8 => some { c with status := { c.status with overflow := false } }
  | 0xD8 => some { c with status := { c.status with decimal := false } }
  | 0xF8 => some { c with status := { c.status with decimal := true } }
  | 0xA9 | 0xA5 | 0xB5 | 0xAD | 0xBD | 0xB9 | 0xA1 | 0xB1 => some (c.load .A mode)
  | 0x08 => some c.php
  | 0x28 => some c.plp
  | 0x48 => some c.pha
  | 0x68 => some c.pla
  | 0xA2 | 0xA6 | 0xB6 | 0xAE | 0xBE => some (c.load .X mode)
  | 0xA0 | 0xA4 | 0xB4 | 0xAC | 0xBC => some (c.load .Y mode)
  | 0xA7 | 0xB7 | 0xAF | 0xBF | 0xA3 | 0xB3 => some (c.lax mode)
  | 0x87 | 0x97 | 0x8F | 0x83 => some (c.sax mode)
  | 0xAA => some (c.transfer .A .X)
  | 0x8A => some (c.transfer .X .A)
  | 0xA8 => some (c.transfer .A .Y)
  | 0x98 => some (c.transfer .Y .A)
  | 0x9A => some (c.transfer .X .S)
  | 0xBA => some (c.transfer .S .X)
  | 0x85 | 0x95 | 0x8D | 0x9D | 0x99 | 0x81 | 0x91 => some (c.store .A mode)
  | 0x86 | 0x96 | 0x8E => some (c.store .X mode)
  | 0x84 | 0x94 | 0x8C => some (c.store .Y mode)
  | 0xE8 => some (c.increment_register .X)
  | 0xC8 => some (c.increment_register .Y)
  | 0xCA => some (c.decrement_register .X)
  | 0x88 => some (c.decrement_register .Y)
  | 0xE6 | 0xF6 | 0xEE | 0xFE => some (c.increment_memory mode).1
  | 0xC6 | 0xD6 | 0xCE | 0xDE => some (c.decrement_memory mode)
  | 0xE7 | 0xF7 | 0xEF | 0xFF | 0xFB | 0xE3 | 0xF3 => some (c.isb mode)
  | 0x29 | 0x25 | 0x35 | 0x2D | 0x3D | 0x39 | 0x21 | 0x31 => some (c.and mode)
  | 0x09 | 0x05 | 0x15 | 0x0D | 0x1D | 0x19 | 0x01 | 0x11 => some (c.ora mode)
  | 0x49 | 0x45 | 0x55 | 0x4D | 0x5D | 0x59 | 0x41 | 0x51 => some (c.eor mode)
  | 0xC9 | 0xC5 | 0xD5 | 0xCD | 0xDD | 0xD9 | 0xC1 | 0xD1 => some (c.compare .A mode)
  | 0xC7 | 0xD7 | 0xCF | 0xDF | 0xDB | 0xD3 | 0xC3 => some (c.dcp mode)
  | 0xE0 | 0xE4 | 0xEC => some (c.compare .X mode)
  | 0xC0 | 0xC4 | 0xCC => some (c.compare .Y mode)
  | _ => none

set_option maxHeartbeats 2000000 in
/-- Single-step executor `Cpu::step` (cpu.rs lines 205-341), parameterized by the opcode table
(instruction.rs is absent from src/, see `Instruction`): fetch the opcode
at PC, advance PC past it, add the base cycle count, dispatch; opcode 0x00
(BRK) sets `b1`, clears `running` and returns early; afterwards, unless
the handler moved PC away from the post-fetch snapshot, advance PC by
(length - 1).  `u16` arithmetic wraps. -/
def Cpu.step (tbl : Nat → Instruction) (c0 : Cpu) : Option Cpu :=
  let opcode := c0.read_byte c0.pc
  let ins := tbl opcode
  let pcSnap := (c0.pc + 1) % 65536
  let c := { c0 with pc := pcSnap, cycles := c0.cycles + ins.cycles }
  if opcode = 0x00 then
    some { c with status := { c.status with b1 := true }, running := false }
  else
    (c.execute opcode ins.mode).map fun c1 =>
      if pcSnap = c1.pc then { c1 with pc := (c1.pc + (ins.bytes - 1)) % 65536 } else c1

/-- Mirroring modes (`enum Mirroring`, rom.rs). -/
inductive Mirroring where
  | vertical
  | horizontal
  | fourScreen
deriving Repr, DecidableEq

/-- Cartridge data (`struct Rom`, rom.rs): PRG-ROM and CHR-ROM bytes, mapper id and
mirroring mode.  `Vec<u8>` is modelled as `List Nat` of byte values. -/
structure Rom where
  prg_rom : List Nat
  chr_rom : List Nat
  mapper : Nat
  mirroring : Mirroring
deriving Repr, DecidableEq

/-- Load errors (`enum Error`, rom.rs). -/
inductive RomError where
  | invalidHeader
  | unsupportedVersion
  | invalidMapper
deriving Repr, DecidableEq

/-- The observable outcome of `Rom::new`: a returned `Ok` value, a
returned `Err` value, or a process abort from an out-of-bounds index or
slice of the raw buffer. -/
inductive LoadResult where
  | ok (rom : Rom)
  | err (e : RomError)
  | panicked
deriving Repr, DecidableEq

/-- Magic tag (`const NES_TAG`, rom.rs). -/
def NES_TAG : List Nat := [0x4e, 0x45, 0x53, 0x1a]

/-- PRG page size (`const PRG_ROM_PAGE_SIZE`, rom.rs). -/
def PRG_ROM_PAGE_SIZE : Nat := 16 * 1024

/-- CHR page size (`const CHR_ROM_PAGE_SIZE`, rom.rs). -/
def CHR_ROM_PAGE_SIZE : Nat := 8 * 1024

/-- Cartridge loader `Rom::new` (rom.rs lines 29-64).  Indexing (`raw[6]`, `raw[7]`…) and
slicing (`raw[0..4]`, `raw[prg_rom_start..]`…) in the source abort when
the buffer is too short; each such access is guarded here and yields
`LoadResult.panicked`, in source evaluation order: the tag slice first,
the header bytes next, then the PRG slice, then the CHR slice. -/
def Rom.new (raw : List Nat) : LoadResult :=
  if raw.length < 4 then .panicked
  else if raw.take 4 ≠ NES_TAG then .err .invalidHeader
  else if raw.length < 8 then .panicked
  else
    let mapper := (raw.getD 6 0 >>> 4) ||| (raw.getD 7 0 &&& 0xf0)
    let ines_version := (raw.getD 7 0 >>> 2) &&& 0x01
    if ines_version ≠ 0 then .err .unsupportedVersion
    else
      let four_screen := (raw.getD 6 0 &&& 0x08) != 0
      let vertical_screen := (raw.getD 6 0 &&& 0x01) != 0
      let mirroring :=
        match four_screen, vertical_screen with
        | true, _ => Mirroring.fourScreen
        | false, true => Mirroring.vertical
        | false, false => Mirroring.horizontal
      let prg_rom_size := raw.getD 4 0 * PRG_ROM_PAGE_SIZE
      let chr_rom_size := raw.getD 5 0 * CHR_ROM_PAGE_SIZE
      let skip_trainer := (raw.getD 6 0 &&& 0x04) ≠ 0
      let prg_rom_start := 16 + if skip_trainer then 512 else 0
      let chr_rom_start := prg_rom_start + prg_rom_size
      if raw.length < prg_rom_start + prg_rom_size then .panicked
      else if raw.length < chr_rom_start + chr_rom_size then .panicked
      else .ok {
        prg_rom := (raw.drop prg_rom_start).take prg_rom_size,
        chr_rom := (raw.drop chr_rom_start).take chr_rom_size,
        mapper := mapper,
        mirroring := mirroring }

/-- Address bus (`struct Bus`, bus.rs): 2048 bytes of internal RAM (modelled as a byte
store indexed 0..2047) plus the loaded cartridge. -/
structure Bus where
  ram : Nat → Nat
  rom : Rom

/-- Bus read `Bus::read_byte` (bus.rs lines 24-44): RAM mirrored every 0x800 bytes
below 0x2000; the PPU register window 0x2000-0x3FFF is stubbed to 0;
0x8000-0xFFFF maps into PRG-ROM, with a 16KB image mirrored into both
halves; anything else reads 0.  `self.rom.prg_rom[i]` would abort when out
of range; `List.getD` with default 0 stands in for it, and every theorem
below only reads in-range indices. -/
def Bus.read_byte (b : Bus) (addr : Nat) : Nat :=
  if addr ≤ 0x1FFF then b.ram (addr % 0x800) % 256
  else if addr ≤ 0x3FFF then 0
  else if 0x8000 ≤ addr ∧ addr ≤ 0xFFFF then
    let adr := addr - 0x8000
    if b.rom.prg_rom.length = 0x4000 ∧ 0x4000 ≤ adr then
      b.rom.prg_rom.getD (adr % 0x4000) 0
    else
      b.rom.prg_rom.getD adr 0
  else 0

/-! ## Helper lemmas -/

lemma read_byte_lt (c : Cpu) (addr : Nat) : c.read_byte addr < 256 :=
  Nat.mod_lt _ (by norm_num)

lemma shift7_eq_one_iff {v : Nat} (h : v < 256) :
    ((v >>> 7 == 1) = true) ↔ v.testBit 7 = true := by
  rw [Nat.testBit_to_div_mod, Nat.shiftRight_eq_div_pow]
  simp only [beq_iff_eq, decide_eq_true_eq]
  norm_num
  omega

lemma and_128_ne_zero_iff {v : Nat} : v &&& 128 ≠ 0 ↔ v.testBit 7 = true := by
  have h := Nat.and_two_pow v 7
  norm_num at h
  rw [h]
  cases hb : v.testBit 7 <;> simp

/-! ## C7: status byte packing/unpacking -/

set_option maxRecDepth 8000 in
/-- C7: for all 256 byte values `x`, packing the flags obtained by
unpacking `x` yields `x` again, and the unpacking layout is fixed as
bit0=carry, bit1=zero, bit2=interrupt-disable, bit3=decimal, bit4=B1,
bit5=B2, bit6=overflow, bit7=negative. -/
theorem status_pack_unpack_roundtrip :
    ∀ v : Fin 256,
      Status.toByte (Status.fromByte v.val) = v.val ∧
      (Status.fromByte v.val).carry = v.val.testBit 0 ∧
      (Status.fromByte v.val).zero = v.val.testBit 1 ∧
      (Status.fromByte v.val).disable_interrupts = v.val.testBit 2 ∧
      (Status.fromByte v.val).decimal = v.val.testBit 3 ∧
      (Status.fromByte v.val).b1 = v.val.testBit 4 ∧
      (Status.fromByte v.val).b2 = v.val.testBit 5 ∧
      (Status.fromByte v.val).overflow = v.val.testBit 6 ∧
      (Status.fromByte v.val).negative = v.val.testBit 7 := by
  decide

/-! ## C1: ADC accumulator, carry, overflow, zero, negative -/

lemma add_to_a_spec (c : Cpu) (v : Nat) (_ha : c.a < 256) (_hv : v < 256) :
    (c.add_to_a v).a
        = (c.a + v + (if c.status.carry then 1 else 0)) % 256 ∧
      ((c.add_to_a v).status.carry = true
        ↔ 255 < c.a + v + (if c.status.carry then 1 else 0)) ∧
      ((c.add_to_a v).status.overflow = true
        ↔ ((v ^^^ (c.add_to_a v).a) &&& ((c.add_to_a v).a ^^^ c.a)).testBit 7) ∧
      ((c.add_to_a v).status.zero = true ↔ (c.add_to_a v).a = 0) ∧
      ((c.add_to_a v).status.negative = true ↔ (c.add_to_a v).a.testBit 7) := by
  simp only [Cpu.add_to_a, Cpu.update_zero_and_negative]
  refine ⟨by trivial, by simp [decide_eq_true_iff], ?_, by simp, ?_⟩
  · simpa [decide_eq_true_iff] using
      (and_128_ne_zero_iff
        (v := (v ^^^ (c.a + v + (if c.status.carry then 1 else 0)) % 256) &&&
          ((c.a + v + (if c.status.carry then 1 else 0)) % 256 ^^^ c.a)))
  · simpa using shift7_eq_one_iff
      (v := (c.a + v + (if c.status.carry then 1 else 0)) % 256)
      (Nat.mod_lt _ (by norm_num))

/-- C1: executing ADC leaves the accumulator equal to
`(A + operand + carry-in) mod 256`, sets carry iff the unwrapped sum
exceeds 255, sets overflow iff `(operand ^ result) & (result ^ A)` has
bit 7 set, and updates zero and negative from the result. -/
theorem adc_correct (c : Cpu) (mode : AddressingMode) (ha : c.a < 256) :
    (c.adc mode).a
        = (c.a + c.read_byte (c.get_operand_address mode c.pc) +
            (if c.status.carry then 1 else 0)) % 256 ∧
      ((c.adc mode).status.carry = true
        ↔ 255 < c.a + c.read_byte (c.get_operand_address mode c.pc) +
            (if c.status.carry then 1 else 0)) ∧
      ((c.adc mode).status.overflow = true
        ↔ ((c.read_byte (c.get_operand_address mode c.pc) ^^^ (c.adc mode).a) &&&
            ((c.adc mode).a ^^^ c.a)).testBit 7) ∧
      ((c.adc mode).status.zero = true ↔ (c.adc mode).a = 0) ∧
      ((c.adc mode).status.negative = true ↔ (c.adc mode).a.testBit 7) := by
  have h := add_to_a_spec c (c.read_byte (c.get_operand_address mode c.pc)) ha
    (read_byte_lt _ _)
  simpa only [Cpu.adc] using h

/-! ## C2: SBC is ADC of the complemented operand -/

set_option maxRecDepth 8000 in
lemma two_complement_sub_one_aux :
    ∀ w : Fin 256, ((256 - w.val) % 256 + 255) % 256 = w.val ^^^ 0xFF := by
  decide

lemma two_complement_sub_one (v : Nat) (hv : v < 256) :
    ((256 - v) % 256 + 255) % 256 = v ^^^ 0xFF :=
  two_complement_sub_one_aux ⟨v, hv⟩

/-- C2: executing SBC produces exactly the same CPU state (accumulator and
all flags) as running the shared ADC addition path on the bitwise
complement of the fetched operand. -/
theorem sbc_eq_adc_complement (c : Cpu) (mode : AddressingMode) :
    c.sbc mode = c.add_to_a (c.read_byte (c.get_operand_address mode c.pc) ^^^ 0xFF) := by
  simp only [Cpu.sbc]
  rw [two_complement_sub_one _ (read_byte_lt _ _)]

/-! ## C3: Indirect addressing page-wrap bug -/

/-- C3: resolving the Indirect addressing mode at a pointer word whose low
byte is 0xFF fetches the low result byte from that address and the high
result byte from the start of the same page (`pointer &&& 0xFF00`), not
from the next page. -/
theorem indirect_page_bug (c : Cpu) (h : c.read_word c.pc &&& 0x00FF = 0x00FF) :
    c.get_operand_address AddressingMode.indirect c.pc =
      c.read_byte (c.read_word c.pc &&& 0xFF00) <<< 8 |||
        c.read_byte (c.read_word c.pc) := by
  simp only [Cpu.get_operand_address]
  rw [if_pos h]

/-- The concrete memory of the example in the claim: the pointer word at PC = 0
reads 0x30FF; 0x30FF holds 0x80, 0x3100 holds 0x50, 0x3000 holds 0x40. -/
def mem30 : Nat → Nat := fun adr =>
  if adr = 0 then 0xFF
  else if adr = 1 then 0x30
  else if adr = 0x30FF then 0x80
  else if adr = 0x3100 then 0x50
  else if adr = 0x3000 then 0x40
  else 0

/-- A CPU state over `mem30` about to resolve an Indirect operand. -/
def cpu30 : Cpu :=
  { a := 0, x := 0, y := 0, sp := 0xFD, status := Status.fromByte 0x24,
    pc := 0, running := true, cycles := 0, mem := mem30 }

theorem indirect_page_bug_witness :
    cpu30.read_word cpu30.pc &&& 0x00FF = 0x00FF ∧
    cpu30.get_operand_address AddressingMode.indirect cpu30.pc = 0x4080 ∧
    (0x4080 : Nat) ≠ 0x5080 := by
  refine ⟨by decide, ?_, by decide⟩
  rw [indirect_page_bug cpu30 (by decide)]
  decide

/-! ## Unfolding equations for the stack primitives -/

lemma push_byte_mem (c : Cpu) (v adr : Nat) :
    (c.push_byte v).mem adr
      = if adr = (STACK + c.sp) % 65536 then v % 256 else c.mem adr := rfl

lemma push_byte_sp (c : Cpu) (v : Nat) :
    (c.push_byte v).sp = (c.sp + 255) % 256 := rfl

lemma push_word_mem (c : Cpu) (v adr : Nat) :
    (c.push_word v).mem adr
      = if adr = (STACK + (c.sp + 255) % 256) % 65536 then ((v &&& 0xFF) % 256) % 256
        else if adr = (STACK + c.sp) % 65536 then ((v >>> 8) % 256) % 256
        else c.mem adr := rfl

lemma push_word_sp (c : Cpu) (v : Nat) :
    (c.push_word v).sp = ((c.sp + 255) % 256 + 255) % 256 := rfl

lemma pop_word_fst_sp (c : Cpu) :
    c.pop_word.1.sp = ((c.sp + 1) % 256 + 1) % 256 := rfl

lemma pop_word_snd (c : Cpu) :
    c.pop_word.2
      = c.read_byte (STACK + ((c.sp + 1) % 256 + 1) % 256) <<< 8 |||
          c.read_byte (STACK + (c.sp + 1) % 256) := rfl

lemma php_eq (c : Cpu) :
    c.php = c.push_byte (Status.toByte { c.status with b1 := true, b2 := true }) := rfl

/-! ## C10: B flags on PHP / PLP / RTI -/

lemma Status.toByte_lt (s : Status) : s.toByte < 256 := by
  rcases s with ⟨f1, f2, f3, f4, f5, f6, f7, f8⟩
  cases f1 <;> cases f2 <;> cases f3 <;> cases f4 <;> cases f5 <;> cases f6 <;>
    cases f7 <;> cases f8 <;> decide

/-- C10: PHP pushes the status byte with both B bits (bit 4 and bit 5)
forced set while leaving the live status unchanged; PLP and RTI, after
pulling the status byte from the stack, force `b1 := false` and
`b2 := true` regardless of the pulled byte value. -/
theorem php_plp_rti_b_flags (c : Cpu) (hsp : c.sp < 256) :
    c.php.status = c.status ∧
      c.php.read_byte (STACK + c.sp)
        = Status.toByte { c.status with b1 := true, b2 := true } ∧
      c.plp.status
        = { Status.fromByte (c.read_byte (STACK + (c.sp + 1) % 256)) with
            b1 := false, b2 := true } ∧
      c.plp.status.b1 = false ∧
      c.plp.status.b2 = true ∧
      c.rti.status
        = { Status.fromByte (c.read_byte (STACK + (c.sp + 1) % 256)) with
            b1 := false, b2 := true } ∧
      c.rti.status.b1 = false ∧
      c.rti.status.b2 = true := by
  have e1 : (STACK + c.sp) % 65536 = STACK + c.sp := by
    simp only [STACK]; omega
  refine ⟨rfl, ?_, rfl, rfl, rfl, rfl, rfl, rfl⟩
  rw [php_eq, Cpu.read_byte, e1, push_byte_mem, if_pos e1.symm,
    Nat.mod_mod_of_dvd _ dvd_rfl, Nat.mod_eq_of_lt (Status.toByte_lt _)]

/-- A concrete CPU state exercising `php_plp_rti_b_flags`. -/
def cpu10 : Cpu :=
  { a := 0x12, x := 0, y := 0, sp := 0x80, status := Status.fromByte 0xC3,
    pc := 0x600, running := true, cycles := 0, mem := fun adr => if adr = 0x181 then 0xFF else 0 }

theorem php_plp_rti_b_flags_witness :
    cpu10.sp < 256 ∧
      (cpu10.php.status = cpu10.status ∧
        cpu10.php.read_byte (STACK + cpu10.sp)
          = Status.toByte { cpu10.status with b1 := true, b2 := true } ∧
        cpu10.plp.status
          = { Status.fromByte (cpu10.read_byte (STACK + (cpu10.sp + 1) % 256)) with
              b1 := false, b2 := true } ∧
        cpu10.plp.status.b1 = false ∧
        cpu10.plp.status.b2 = true ∧
        cpu10.rti.status
          = { Status.fromByte (cpu10.read_byte (STACK + (cpu10.sp + 1) % 256)) with
              b1 := false, b2 := true } ∧
        cpu10.rti.status.b1 = false ∧
        cpu10.rti.status.b2 = true) :=
  ⟨by decide, php_plp_rti_b_flags cpu10 (by decide)⟩

/-! ## C6: stack word round-trip -/

lemma hi_lo_or (v : Nat) (hv : v < 65536) :
    ((v >>> 8) % 256) <<< 8 ||| ((v &&& 0xFF) % 256) = v := by
  have h8 : v >>> 8 = v / 256 := by
    rw [Nat.shiftRight_eq_div_pow]
  have hand : v &&& 0xFF = v % 256 := by
    have h := Nat.and_pow_two_sub_one_eq_mod v 8
    norm_num at h; exact h
  have hlt : v / 256 < 256 := by omega
  rw [h8, hand, Nat.mod_eq_of_lt hlt, Nat.mod_mod_of_dvd _ dvd_rfl,
    Nat.shiftLeft_eq]
  have h2 := Nat.mul_add_lt_is_or (b := v % 256) (i := 8) (by omega) (v / 256)
  norm_num at h2
  rw [mul_comm] at h2
  rw [← h2]
  omega

/-- C6: `push_word v` followed by `pop_word` returns `v` and restores SP to
its pre-push value; the push stores the high byte at the original SP slot
and the low byte one slot below (so the low byte is on top), both inside
the 0x0100 stack page, and no memory outside the stack page changes. -/
theorem push_pop_word_roundtrip (c : Cpu) (v : Nat) (hv : v < 65536) (hsp : c.sp < 256) :
    (c.push_word v).pop_word.2 = v ∧
      (c.push_word v).pop_word.1.sp = c.sp ∧
      (c.push_word v).read_byte (STACK + c.sp) = (v >>> 8) % 256 ∧
      (c.push_word v).read_byte (STACK + (c.sp + 255) % 256) = (v &&& 0xFF) % 256 ∧
      (∀ adr, adr < 65536 → ¬(STACK ≤ adr ∧ adr ≤ STACK + 0xFF) →
        (c.push_word v).mem adr = c.mem adr) := by
  have e1 : (STACK + c.sp) % 65536 = STACK + c.sp := by
    simp only [STACK]; omega
  have e2 : (STACK + (c.sp + 255) % 256) % 65536 = STACK + (c.sp + 255) % 256 := by
    simp only [STACK]; omega
  have e3 : (((c.sp + 255) % 256 + 255) % 256 + 1) % 256 = (c.sp + 255) % 256 := by
    omega
  have e4 : ((c.sp + 255) % 256 + 1) % 256 = c.sp := by omega
  have ne21 : STACK + c.sp ≠ STACK + (c.sp + 255) % 256 := by
    simp only [STACK]; omega
  refine ⟨?_, ?_, ?_, ?_, ?_⟩
  · rw [pop_word_snd, push_word_sp, e3, e4, Cpu.read_byte, Cpu.read_byte, e1, e2,
      push_word_mem, push_word_mem,
      if_neg (fun h => ne21 (h.trans e2)), if_pos e1.symm, if_pos e2.symm,
      Nat.mod_mod_of_dvd _ dvd_rfl, Nat.mod_mod_of_dvd _ dvd_rfl,
      Nat.mod_mod_of_dvd _ dvd_rfl, Nat.mod_mod_of_dvd _ dvd_rfl]
    exact hi_lo_or v hv
  · rw [pop_word_fst_sp, push_word_sp, e3, e4]
  · rw [Cpu.read_byte, e1, push_word_mem,
      if_neg (fun h => ne21 (h.trans e2)), if_pos e1.symm,
      Nat.mod_mod_of_dvd _ dvd_rfl, Nat.mod_mod_of_dvd _ dvd_rfl]
  · rw [Cpu.read_byte, e2, push_word_mem, if_pos e2.symm,
      Nat.mod_mod_of_dvd _ dvd_rfl, Nat.mod_mod_of_dvd _ dvd_rfl]
  · intro adr h1 h2
    rw [push_word_mem, e1, e2]
    have hne1 : adr ≠ STACK + c.sp := by simp only [STACK] at *; omega
    have hne2 : adr ≠ STACK + (c.sp + 255) % 256 := by simp only [STACK] at *; omega
    rw [if_neg hne2, if_neg hne1]

/-- A concrete CPU state exercising `push_pop_word_roundtrip` at SP = 0,
where the stack pointer wraps within the stack page. -/
def cpu6 : Cpu :=
  { a := 0, x := 0, y := 0, sp := 0x00, status := Status.fromByte 0x24,
    pc := 0x600, running := true, cycles := 0, mem := fun _ => 0 }

theorem push_pop_word_roundtrip_witness :
    (0xBEEF : Nat) < 65536 ∧ cpu6.sp < 256 ∧
      ((cpu6.push_word 0xBEEF).pop_word.2 = 0xBEEF ∧
        (cpu6.push_word 0xBEEF).pop_word.1.sp = cpu6.sp ∧
        (cpu6.push_word 0xBEEF).read_byte (STACK + cpu6.sp) = (0xBEEF >>> 8) % 256 ∧
        (cpu6.push_word 0xBEEF).read_byte (STACK + (cpu6.sp + 255) % 256)
          = (0xBEEF &&& 0xFF) % 256 ∧
        (∀ adr, adr < 65536 → ¬(STACK ≤ adr ∧ adr ≤ STACK + 0xFF) →
          (cpu6.push_word 0xBEEF).mem adr = cpu6.mem adr)) :=
  ⟨by decide, by decide, push_pop_word_roundtrip cpu6 0xBEEF (by decide) (by decide)⟩

/-! ## C5: shift/rotate flag updates -/

lemma or_lt_256 {a b : Nat} (h1 : a < 256) (h2 : b < 256) : a ||| b < 256 := by
  have e : (2 : Nat) ^ 8 = 256 := by norm_num
  exact e ▸ Nat.or_lt_two_pow (e.symm ▸ h1) (e.symm ▸ h2)

lemma and_lt_256 {a b : Nat} (h2 : b < 256) : a &&& b < 256 := by
  have e : (2 : Nat) ^ 8 = 256 := by norm_num
  exact e ▸ Nat.and_lt_two_pow a (e.symm ▸ h2)

lemma shiftRight_lt_256 {v : Nat} (h : v < 256) (k : Nat) : v >>> k < 256 := by
  rw [Nat.shiftRight_eq_div_pow]
  exact Nat.lt_of_le_of_lt (Nat.div_le_self _ _) h

lemma carry_shl7_lt (b : Bool) : (if b then 1 else 0) <<< 7 < 256 := by
  cases b <;> decide

lemma ror_snd_lt (c : Cpu) (mode : AddressingMode) : (c.ror mode).2 < 256 :=
  or_lt_256 (carry_shl7_lt _) (shiftRight_lt_256 (read_byte_lt _ _) 1)

lemma rol_snd_lt (c : Cpu) (mode : AddressingMode) : (c.rol mode).2 < 256 :=
  or_lt_256 (Nat.mod_lt _ (by norm_num)) (by cases c.status.carry <;> decide)

lemma asl_snd_lt (c : Cpu) (mode : AddressingMode) : (c.asl mode).2 < 256 :=
  Nat.mod_lt _ (by norm_num)

lemma lsr_snd_lt (c : Cpu) (mode : AddressingMode) : (c.lsr mode).2 < 256 :=
  shiftRight_lt_256 (read_byte_lt _ _) 1

/-- C5 (amended): zero and negative are both updated from the result for
the accumulator-mode shifts and rotates and for the memory-mode ASL/LSR,
and for the final accumulator value of the fused RLA/RRA opcodes; the
memory-mode ROL and ROR helper — used by the official memory ROL/ROR
opcodes as well as by RLA/RRA — updates negative only from the rotated
value and leaves the zero flag unchanged. -/
theorem rotate_shift_flags (c : Cpu) (mode : AddressingMode) (ha : c.a < 256) :
    ((c.ror mode).1.status.negative = true ↔ (c.ror mode).2.testBit 7 = true) ∧
      (c.ror mode).1.status.zero = c.status.zero ∧
      ((c.rol mode).1.status.negative = true ↔ (c.rol mode).2.testBit 7 = true) ∧
      (c.rol mode).1.status.zero = c.status.zero ∧
      ((c.asl mode).1.status.zero = true ↔ (c.asl mode).2 = 0) ∧
      ((c.asl mode).1.status.negative = true ↔ (c.asl mode).2.testBit 7 = true) ∧
      ((c.lsr mode).1.status.zero = true ↔ (c.lsr mode).2 = 0) ∧
      ((c.lsr mode).1.status.negative = true ↔ (c.lsr mode).2.testBit 7 = true) ∧
      (c.ror_a.status.zero = true ↔ c.ror_a.a = 0) ∧
      (c.ror_a.status.negative = true ↔ c.ror_a.a.testBit 7 = true) ∧
      (c.rol_a.status.zero = true ↔ c.rol_a.a = 0) ∧
      (c.rol_a.status.negative = true ↔ c.rol_a.a.testBit 7 = true) ∧
      (c.asl_a.status.zero = true ↔ c.asl_a.a = 0) ∧
      (c.asl_a.status.negative = true ↔ c.asl_a.a.testBit 7 = true) ∧
      (c.lsr_a.status.zero = true ↔ c.lsr_a.a = 0) ∧
      (c.lsr_a.status.negative = true ↔ c.lsr_a.a.testBit 7 = true) ∧
      ((c.rla mode).status.zero = true ↔ (c.rla mode).a = 0) ∧
      ((c.rla mode).status.negative = true ↔ (c.rla mode).a.testBit 7 = true) ∧
      ((c.rra mode).status.zero = true ↔ (c.rra mode).a = 0) ∧
      ((c.rra mode).status.negative = true ↔ (c.rra mode).a.testBit 7 = true) := by
  refine ⟨shift7_eq_one_iff (ror_snd_lt c mode), rfl,
    shift7_eq_one_iff (rol_snd_lt c mode), rfl,
    beq_iff_eq, shift7_eq_one_iff (asl_snd_lt c mode),
    beq_iff_eq, shift7_eq_one_iff (lsr_snd_lt c mode),
    beq_iff_eq, shift7_eq_one_iff (or_lt_256 (carry_shl7_lt _) (shiftRight_lt_256 ha 1)),
    beq_iff_eq, shift7_eq_one_iff (or_lt_256 (Nat.mod_lt _ (by norm_num))
      (by cases c.status.carry <;> decide)),
    beq_iff_eq, shift7_eq_one_iff (Nat.mod_lt _ (by norm_num)),
    beq_iff_eq, shift7_eq_one_iff (shiftRight_lt_256 ha 1),
    beq_iff_eq, shift7_eq_one_iff (and_lt_256 (rol_snd_lt c mode)),
    beq_iff_eq, shift7_eq_one_iff (Nat.mod_lt _ (by norm_num))⟩

/-! ## C8: PRG-ROM mirroring on the bus -/

/-- C8: with a 16KB PRG-ROM, every address in 0x8000-0xBFFF reads the same
byte as that address plus 0x4000; with a 32KB PRG-ROM the two addresses
read the bytes at two distinct PRG-ROM offsets. -/
theorem prg_rom_mirroring (bus : Bus) :
    (bus.rom.prg_rom.length = 0x4000 →
      ∀ adr, 0x8000 ≤ adr → adr ≤ 0xBFFF →
        bus.read_byte adr = bus.read_byte (adr + 0x4000)) ∧
    (bus.rom.prg_rom.length = 0x8000 →
      ∀ adr, 0x8000 ≤ adr → adr ≤ 0xBFFF →
        bus.read_byte adr = bus.rom.prg_rom.getD (adr - 0x8000) 0 ∧
        bus.read_byte (adr + 0x4000) = bus.rom.prg_rom.getD (adr - 0x8000 + 0x4000) 0 ∧
        adr - 0x8000 ≠ adr - 0x8000 + 0x4000) := by
  constructor
  · intro hlen adr h1 h2
    simp only [Bus.read_byte]
    rw [if_neg (by omega), if_neg (by omega), if_pos (by omega : 0x8000 ≤ adr ∧ adr ≤ 0xFFFF),
      if_neg (by omega), if_neg (by omega),
      if_pos (by omega : 0x8000 ≤ adr + 0x4000 ∧ adr + 0x4000 ≤ 0xFFFF)]
    rw [if_neg (fun h => by omega), if_pos ⟨hlen, by omega⟩]
    have e : (adr + 0x4000 - 0x8000) % 0x4000 = adr - 0x8000 := by omega
    rw [e]
  · intro hlen adr h1 h2
    simp only [Bus.read_byte]
    rw [if_neg (by omega), if_neg (by omega), if_pos (by omega : 0x8000 ≤ adr ∧ adr ≤ 0xFFFF),
      if_neg (by omega), if_neg (by omega),
      if_pos (by omega : 0x8000 ≤ adr + 0x4000 ∧ adr + 0x4000 ≤ 0xFFFF)]
    rw [if_neg (fun h => by omega), if_neg (fun h => by omega)]
    have e : adr + 0x4000 - 0x8000 = adr - 0x8000 + 0x4000 := by omega
    rw [e]
    exact ⟨rfl, rfl, by omega⟩

/-- A 16KB cartridge image. -/
def rom16 : Rom :=
  { prg_rom := List.replicate 0x4000 0x7E, chr_rom := [],
    mapper := 0, mirroring := .horizontal }

/-- A 32KB cartridge image. -/
def rom32 : Rom :=
  { prg_rom := List.replicate 0x8000 0x3C, chr_rom := [],
    mapper := 0, mirroring := .horizontal }

/-- Buses over the two cartridge images. -/
def bus16 : Bus := { ram := fun _ => 0, rom := rom16 }

def bus32 : Bus := { ram := fun _ => 0, rom := rom32 }

theorem prg_rom_mirroring_witness :
    bus16.rom.prg_rom.length = 0x4000 ∧
      bus16.read_byte 0x9ABC = bus16.read_byte (0x9ABC + 0x4000) ∧
      bus32.rom.prg_rom.length = 0x8000 ∧
      (bus32.read_byte 0x9ABC = bus32.rom.prg_rom.getD (0x9ABC - 0x8000) 0 ∧
        bus32.read_byte (0x9ABC + 0x4000)
          = bus32.rom.prg_rom.getD (0x9ABC - 0x8000 + 0x4000) 0 ∧
        0x9ABC - 0x8000 ≠ 0x9ABC - 0x8000 + 0x4000) := by
  have h16 : bus16.rom.prg_rom.length = 0x4000 :=
    List.length_replicate 0x4000 0x7E
  have h32 : bus32.rom.prg_rom.length = 0x8000 :=
    List.length_replicate 0x8000 0x3C
  exact ⟨h16, (prg_rom_mirroring bus16).1 h16 0x9ABC (by norm_num) (by norm_num),
    h32, (prg_rom_mirroring bus32).2 h32 0x9ABC (by norm_num) (by norm_num)⟩

/-! ## C9: short cartridge buffers abort instead of failing cleanly -/

/-- An 8-byte buffer with a valid magic tag declaring one 16KB PRG page
but carrying no ROM data at all. -/
def c9raw : List Nat := [0x4E, 0x45, 0x53, 0x1A, 1, 0, 0, 0]

/-- C9 (failing input): on a buffer shorter than the declared PRG-ROM
size, `Rom::new` aborts on an out-of-bounds slice (modelled as
`LoadResult.panicked`) instead of returning an `InvalidHeader`-style
error to the caller. -/
theorem rom_new_short_buffer_aborts :
    Rom.new c9raw = LoadResult.panicked ∧
      LoadResult.panicked ≠ LoadResult.err RomError.invalidHeader := by
  exact ⟨by decide, by decide⟩

/-- A CPU state with accumulator 0x50 about to execute an immediate-mode
ADC of 0x50 with carry clear. -/
def cpuC1 : Cpu :=
  { a := 0x50, x := 0, y := 0, sp := 0xFD, status := Status.fromByte 0x24,
    pc := 0, running := true, cycles := 0, mem := fun _ => 0x50 }

theorem adc_correct_witness :
    cpuC1.a < 256 ∧
      (cpuC1.adc AddressingMode.immediate).a
        = (cpuC1.a + cpuC1.read_byte (cpuC1.get_operand_address AddressingMode.immediate cpuC1.pc) +
            (if cpuC1.status.carry then 1 else 0)) % 256 :=
  ⟨by decide, (adc_correct cpuC1 AddressingMode.immediate (by decide)).1⟩

/-- A CPU state for exercising `rotate_shift_flags`. -/
def cpuC5w : Cpu :=
  { a := 0x81, x := 0, y := 0, sp := 0xFD, status := Status.fromByte 0x00,
    pc := 0, running := true, cycles := 0, mem := fun adr => if adr = 0x42 then 0x01 else 0x42 }

theorem rotate_shift_flags_witness :
    cpuC5w.a < 256 ∧
      (cpuC5w.ror AddressingMode.zeroPage).1.status.zero = cpuC5w.status.zero ∧
      (cpuC5w.rol_a.status.zero = true ↔ cpuC5w.rol_a.a = 0) :=
  ⟨by decide, (rotate_shift_flags cpuC5w AddressingMode.zeroPage (by decide)).2.1,
    (rotate_shift_flags cpuC5w AddressingMode.zeroPage (by decide)).2.2.2.2.2.2.2.2.2.2.1⟩

/-- Memory holding an official memory-mode ROR (opcode 0x66, zero page) at
address 0 whose operand byte 0x01 rotates to 0 (carry clear). -/
def memC5 : Nat → Nat := fun adr =>
  if adr = 0 then 0x66 else if adr = 1 then 0x42 else if adr = 0x42 then 0x01 else 0

/-- CPU state about to execute that ROR, with the zero flag clear. -/
def cpuC5 : Cpu :=
  { a := 0, x := 0, y := 0, sp := 0xFD, status := Status.fromByte 0x00,
    pc := 0, running := true, cycles := 0, mem := memC5 }

/-- Opcode-table row for zero-page ROR: 2 bytes. -/
def tblC5 : Nat → Instruction := fun _ => { mode := .zeroPage, bytes := 2, cycles := 5 }

/-- C5 (counterexample): executing the official memory-mode ROR opcode
0x66 on an operand that rotates to 0 leaves the zero flag false (the
memory rotate path updates negative only), contradicting the claim that
every official memory-mode ROL/ROR updates the zero flag from the rotated
value. -/
theorem ror_official_zero_flag_counterexample :
    (Cpu.step tblC5 cpuC5).map (fun c => (c.status.zero, c.read_byte 0x42))
      = some (false, 0) := by
  decide

/-! ## C4: branch PC accounting -/

/-- The state after `step` has fetched the opcode and advanced PC and the
cycle counter (cpu.rs lines 210-212). -/
def Cpu.afterFetch (c : Cpu) (ins : Instruction) : Cpu :=
  { c with pc := (c.pc + 1) % 65536, cycles := c.cycles + ins.cycles }

/-- The opcode/condition pairing of the eight conditional-branch dispatch
arms (cpu.rs lines 241-248). -/
def branchPairs : List (Nat × BranchCondition) :=
  [(0xB0, .carrySet), (0x90, .carryClear), (0xF0, .zeroSet), (0xD0, .zeroClear),
   (0x30, .minusSet), (0x10, .minusClear), (0x70, .overflowSet), (0x50, .overflowClear)]

lemma step_branch_eq (tbl : Nat → Instruction) (c : Cpu) (opcode : Nat)
    (cond : BranchCondition) (hop : c.read_byte c.pc = opcode)
    (hpair : (opcode, cond) ∈ branchPairs) :
    Cpu.step tbl c = some (
      if (c.pc + 1) % 65536
          = ((c.afterFetch (tbl opcode)).branch cond (tbl opcode).mode).pc
      then { (c.afterFetch (tbl opcode)).branch cond (tbl opcode).mode with
             pc := (((c.afterFetch (tbl opcode)).branch cond (tbl opcode).mode).pc
                    + ((tbl opcode).bytes - 1)) % 65536 }
      else (c.afterFetch (tbl opcode)).branch cond (tbl opcode).mode) := by
  simp only [branchPairs, List.mem_cons, List.mem_singleton, Prod.mk.injEq,
    List.not_mem_nil, or_false] at hpair
  rcases hpair with ⟨h1, h2⟩ | ⟨h1, h2⟩ | ⟨h1, h2⟩ | ⟨h1, h2⟩ |
    ⟨h1, h2⟩ | ⟨h1, h2⟩ | ⟨h1, h2⟩ | ⟨h1, h2⟩ <;> subst h1 <;> subst h2 <;>
    (simp only [Cpu.step, hop]; rfl)

lemma branch_pc_eq (c1 : Cpu) (cond : BranchCondition) :
    (c1.branch cond AddressingMode.relative).pc
      = ((if c1.condition_met cond
          then (c1.pc + (if c1.read_byte c1.pc < 0x80 then c1.read_byte c1.pc
                         else c1.read_byte c1.pc + 0xFF00)) % 65536
          else c1.pc) + 1) % 65536 := by
  unfold Cpu.branch Cpu.get_operand_address
  cases hcm : c1.condition_met cond
  · simp [hcm]
  · simp [hcm]

/-- C4 (amended): after `step` on a 2-byte conditional branch at address
P: if the condition is false PC = P + 2 (mod 2^16); if the condition is
true PC is the Relative-resolved target plus 1, where Relative resolution
adds the sign-extended offset to the address of the offset byte itself
(P + 1), so PC = P + 2 + offset (mod 2^16) — except when the offset byte
is 0xFF, in which case PC after the branch equals the post-fetch snapshot
and the generic end-of-step length advance applies again, giving
PC = P + 2 (mod 2^16). -/
theorem branch_pc_accounting (tbl : Nat → Instruction) (c : Cpu)
    (opcode : Nat) (cond : BranchCondition)
    (hop : c.read_byte c.pc = opcode)
    (hpair : (opcode, cond) ∈ branchPairs)
    (hmode : (tbl opcode).mode = AddressingMode.relative)
    (hbytes : (tbl opcode).bytes = 2) :
    ∃ c', Cpu.step tbl c = some c' ∧
      c'.pc =
        if c.condition_met cond then
          if c.read_byte ((c.pc + 1) % 65536) = 0xFF then (c.pc + 2) % 65536
          else (c.pc + 2 +
            (if c.read_byte ((c.pc + 1) % 65536) < 0x80
             then c.read_byte ((c.pc + 1) % 65536)
             else c.read_byte ((c.pc + 1) % 65536) + 0xFF00)) % 65536
        else (c.pc + 2) % 65536 := by
  refine ⟨_, step_branch_eq tbl c opcode cond hop hpair, ?_⟩
  rw [hmode, hbytes]
  simp only [apply_ite Cpu.pc]
  rw [branch_pc_eq]
  have e_read : (c.afterFetch (tbl opcode)).read_byte (c.afterFetch (tbl opcode)).pc
      = c.read_byte ((c.pc + 1) % 65536) := rfl
  have e_cm : (c.afterFetch (tbl opcode)).condition_met cond = c.condition_met cond := rfl
  have e_pc : (c.afterFetch (tbl opcode)).pc = (c.pc + 1) % 65536 := rfl
  rw [e_read, e_cm, e_pc]
  have ho : c.read_byte ((c.pc + 1) % 65536) < 256 := read_byte_lt _ _
  cases hcm : c.condition_met cond <;> split_ifs <;> omega

/-- Memory with a BCS (0xB0) at 0x600 and offset byte 0x10. -/
def memC4 : Nat → Nat := fun adr =>
  if adr = 0x600 then 0xB0 else if adr = 0x601 then 0x10 else 0

/-- CPU state about to take that branch (carry set). -/
def cpuC4 : Cpu :=
  { a := 0, x := 0, y := 0, sp := 0xFD, status := Status.fromByte 0x25,
    pc := 0x600, running := true, cycles := 0, mem := memC4 }

/-- Opcode-table row for a relative branch: 2 bytes. -/
def tblC4 : Nat → Instruction := fun _ => { mode := .relative, bytes := 2, cycles := 2 }

/-- C4 (counterexample): taking BCS at P = 0x600 with offset 0x10 leaves
PC = 0x612 = P + 2 + offset.  The claim, reading Relative resolution as
relative to the address following the offset byte (P + 2) plus 1,
predicts 0x613, so the claim as stated is false at this input. -/
theorem branch_taken_pc_counterexample :
    (Cpu.step tblC4 cpuC4).map Cpu.pc = some 0x612 ∧ (0x612 : Nat) ≠ 0x613 := by
  exact ⟨by decide, by decide⟩

theorem branch_pc_accounting_witness :
    cpuC4.read_byte cpuC4.pc = 0xB0 ∧
      (0xB0, BranchCondition.carrySet) ∈ branchPairs ∧
      (tblC4 0xB0).mode = AddressingMode.relative ∧
      (tblC4 0xB0).bytes = 2 ∧
      (∃ c', Cpu.step tblC4 cpuC4 = some c' ∧
        c'.pc =
          if cpuC4.condition_met BranchCondition.carrySet then
            if cpuC4.read_byte ((cpuC4.pc + 1) % 65536) = 0xFF then (cpuC4.pc + 2) % 65536
            else (cpuC4.pc + 2 +
              (if cpuC4.read_byte ((cpuC4.pc + 1) % 65536) < 0x80
               then cpuC4.read_byte ((cpuC4.pc + 1) % 65536)
               else cpuC4.read_byte ((cpuC4.pc + 1) % 65536) + 0xFF00)) % 65536
          else (cpuC4.pc + 2) % 65536) :=
  ⟨by decide, by decide, rfl, rfl,
    branch_pc_accounting tblC4 cpuC4 0xB0 BranchCondition.carrySet
      (by decide) (by decide) rfl rfl⟩


end Cozynes
